import Mathlib

/-!
Shallow embedding of the RL control module of the `robot` repository
(`src/module/rl_control_module/rl_controller.h`).

The repository ships only the class header: every data member, its type and
its in-class initializer (`is_first_rec_obs_{true}`, `trans_mode_percent_ = 0.0`,
`trans_mode_duration_ms_ = 2000.0`) is taken from that header, while the
method bodies (`Update`, the four mode handlers, `UpdateStateEstimation`,
`ComputeObservation`, `ComputeActions`, the setters) are not in the sources;
they are modelled from the specification, as marked on each definition.

Real numbers of the program (`double`, `float`) are embedded as `ℚ` so that
every definition is executable and every concrete property decidable.
-/

namespace RLControl

/-- Walk-step parameters, from `ControlCfg::WalkStepCfg` in the header:
`action_scale`, `decimation`, `cycle_time`, `sw_mode`, `cmd_threshold`. -/
structure WalkStepCfg where
  action_scale : ℚ
  decimation : ℤ
  cycle_time : ℚ
  sw_mode : Bool
  cmd_threshold : ℚ
deriving DecidableEq, Repr

/-- Observation scale factors, from `ControlCfg::ObsScales` in the header. -/
structure ObsScales where
  lin_vel : ℚ
  ang_vel : ℚ
  dof_pos : ℚ
  dof_vel : ℚ
  quat : ℚ
deriving DecidableEq, Repr

/-- Inference parameters, from `ControlCfg::OnnxCfg` in the header
(`policy_file` is the model reference, external to the core; sizes are
embedded as `ℕ`). -/
structure OnnxCfg where
  policy_file : String
  actions_size : ℕ
  obs_size : ℕ
  num_hist : ℕ
  obs_clip : ℚ
  actions_clip : ℚ
deriving DecidableEq, Repr

/-- `ControlCfg` from the header: `joint_conf` is the nested map
`joint_conf["init_state"/"stiffness"/"damping"][joint_name]`, embedded as a
nested association list; `ordered_joint_name` defines all vector indexing. -/
structure ControlCfg where
  joint_conf : List (String × List (String × ℚ))
  ordered_joint_name : List String
  walk_step_conf : WalkStepCfg
  obs_scales : ObsScales
  onnx_conf : OnnxCfg
deriving DecidableEq, Repr

/-- Looks a joint value up in one of the `joint_conf` sub-maps
("init_state", "stiffness" or "damping"), defaulting to 0. -/
def ControlCfg.jointConf (cfg : ControlCfg) (field joint : String) : ℚ :=
  (((cfg.joint_conf.lookup field).getD []).lookup joint).getD 0

/-- `ControlMode`, modelled from the spec: the enumerated variant
{Idle, Zero, Stand, Walk} of `control_mode.h`, which is not in the sources. -/
inductive ControlMode where
  | Idle
  | Zero
  | Stand
  | Walk
deriving DecidableEq, Repr

/-- A 3-vector of rationals (the embedding of `vector3_t`). -/
structure Vec3 where
  x : ℚ
  y : ℚ
  z : ℚ
deriving DecidableEq, Repr

/-- An orientation quaternion (w, x, y, z). -/
structure Quat where
  w : ℚ
  x : ℚ
  y : ℚ
  z : ℚ
deriving DecidableEq, Repr

/-- The velocity command message (`geometry_msgs::msg::Twist`): linear and
angular velocity intent. -/
structure Twist where
  linear_x : ℚ
  linear_y : ℚ
  linear_z : ℚ
  angular_x : ℚ
  angular_y : ℚ
  angular_z : ℚ
deriving DecidableEq, Repr

/-- The IMU message (`sensor_msgs::msg::Imu`): orientation quaternion,
angular velocity and linear acceleration. -/
structure Imu where
  orientation : Quat
  angular_velocity : Vec3
  linear_acceleration : Vec3
deriving DecidableEq, Repr

/-- The joint-state message (`sensor_msgs::msg::JointState`): name-keyed
position and velocity samples. -/
structure JointState where
  name : List String
  position : List ℚ
  velocity : List ℚ
deriving DecidableEq, Repr

/-- `Proprioception` from the header: joint positions and velocities in
config order, base angular velocity and the gravity vector projected into
the body frame.  The header also declares `base_euler_xyz`; its conversion
from the quaternion is transcendental and its axis convention is an open
question of the spec, and no observation feature or claim depends on it, so
the field is not carried by the embedding. -/
structure Proprioception where
  joint_pos : List ℚ
  joint_vel : List ℚ
  base_ang_vel : Vec3
  projected_gravity : Vec3
deriving DecidableEq, Repr

/-- Modelled from the spec: the first-order digital low-pass filter of
`utilities.h` (not in the sources), one instance per joint, with a fixed
smoothing coefficient and a single memory cell persisting across ticks. -/
structure digital_lp_filter where
  alpha : ℚ
  mem : ℚ
deriving DecidableEq, Repr

/-- Modelled from the spec: one filter step; returns the smoothed output and
the updated filter (memory moves toward the input by the fixed fraction
`alpha`). -/
def digital_lp_filter.step (f : digital_lp_filter) (input : ℚ) :
    ℚ × digital_lp_filter :=
  let out := f.mem + f.alpha * (input - f.mem)
  (out, { f with mem := out })

/-- Modelled from the spec: the smoothing coefficient is "derived from
`cycle_time`"; the exact derivation lives in `utilities.h`, which is not in
the sources, and no claim depends on its value. -/
def lpfAlpha (cycle_time : ℚ) : ℚ :=
  cycle_time / (cycle_time + 1)

/-- Clips a value to the symmetric interval `[-bound, bound]`. -/
def clip (bound x : ℚ) : ℚ :=
  max (-bound) (min bound x)

/-- Modelled from the spec: rotates the unit-down gravity vector (0,0,-1)
from world frame into body frame via the inverse of the (unit) orientation
quaternion (`rotation_tools.h` is not in the sources). -/
def projectGravity (q : Quat) : Vec3 :=
  { x := -(2 * (q.x * q.z - q.w * q.y))
  , y := -(2 * (q.y * q.z + q.w * q.x))
  , z := -(1 - 2 * (q.x * q.x + q.y * q.y)) }

/-- Modelled from the spec: reindexes name-keyed samples into
`ordered_joint_name` order; a joint missing from the reading retains its
previous-tick value, not zero. -/
def reindex (names : List String) (vals prev : List ℚ)
    (ordered : List String) : List ℚ :=
  (List.range ordered.length).map fun i =>
    match names.findIdx? (· = ordered.getD i "") with
    | some k => vals.getD k (prev.getD i 0)
    | none => prev.getD i 0

/-- The controller state: every field of class `RLController` in the header
that the core's semantics touches, with the header's in-class initial values
(`is_first_rec_obs_{true}`, `trans_mode_percent_ = 0.0`,
`trans_mode_duration_ms_ = 2000.0`).  The ONNX session handles are replaced
by the inference engine passed as a black-box argument to `Update`, per the
spec's external-interface contract; `fault_flag` and `infer_count` embed the
spec's fault signal and "inference is invoked" observations;
`received_joy/imu/joint_state` embed the spec's cold-start readiness guard. -/
structure RLController where
  use_sim_handles : Bool
  control_conf : ControlCfg
  init_joint_angles : List ℚ
  control_mode : ControlMode
  joy_data : Twist
  imu_data : Imu
  joint_state_data : JointState
  joint_name_index : List (String × ℕ)
  actions : List ℚ
  observations : List ℚ
  propri : Proprioception
  last_actions : List ℚ
  propri_history_buffer : List (List ℚ)
  is_first_rec_obs : Bool
  loop_count : ℤ
  infer_count : ℕ
  low_pass_filters : List digital_lp_filter
  sim_joint_cmd : List ℚ
  fault_flag : Bool
  received_joy : Bool
  received_imu : Bool
  received_joint_state : Bool
  trans_mode_percent : ℚ
  trans_mode_duration_ms : ℚ
  current_joint_angles : List ℚ
deriving DecidableEq, Repr

namespace RLController

/-- Modelled from the spec: the constructor
`RLController(control_conf, use_sim_handles)` (body not in the sources):
caches `init_state` angles in config order, builds one low-pass filter per
joint, and leaves the header-initialized fields at their declared values
(`is_first_rec_obs = true`, `trans_mode_percent = 0`,
`trans_mode_duration_ms = 2000`). -/
def init (cfg : ControlCfg) (use_sim : Bool) : RLController :=
  let n := cfg.ordered_joint_name.length
  { use_sim_handles := use_sim
  , control_conf := cfg
  , init_joint_angles :=
      cfg.ordered_joint_name.map fun nm => cfg.jointConf "init_state" nm
  , control_mode := ControlMode.Idle
  , joy_data := ⟨0, 0, 0, 0, 0, 0⟩
  , imu_data := ⟨⟨1, 0, 0, 0⟩, ⟨0, 0, 0⟩, ⟨0, 0, 0⟩⟩
  , joint_state_data := ⟨[], [], []⟩
  , joint_name_index := []
  , actions := List.replicate cfg.onnx_conf.actions_size 0
  , observations := []
  , propri := ⟨List.replicate n 0, List.replicate n 0, ⟨0, 0, 0⟩, ⟨0, 0, -1⟩⟩
  , last_actions := List.replicate n 0
  , propri_history_buffer := []
  , is_first_rec_obs := true
  , loop_count := 0
  , infer_count := 0
  , low_pass_filters :=
      List.replicate n ⟨lpfAlpha cfg.walk_step_conf.cycle_time, 0⟩
  , sim_joint_cmd := List.replicate n 0
  , fault_flag := false
  , received_joy := false
  , received_imu := false
  , received_joint_state := false
  , trans_mode_percent := 0
  , trans_mode_duration_ms := 2000
  , current_joint_angles := List.replicate n 0 }

/-- Modelled from the spec: `SetMode` stores the new mode; entering Stand
always resets `trans_mode_percent` to 0 regardless of the prior mode. -/
def SetMode (control_mode : ControlMode) (s : RLController) : RLController :=
  if control_mode = ControlMode.Stand then
    { s with control_mode := control_mode, trans_mode_percent := 0 }
  else
    { s with control_mode := control_mode }

/-- Modelled from the spec: `SetCmdData` atomically replaces the latest
velocity command snapshot. -/
def SetCmdData (joy_data : Twist) (s : RLController) : RLController :=
  { s with joy_data := joy_data, received_joy := true }

/-- Modelled from the spec: `SetImuData` atomically replaces the latest IMU
snapshot. -/
def SetImuData (imu_data : Imu) (s : RLController) : RLController :=
  { s with imu_data := imu_data, received_imu := true }

/-- Modelled from the spec: `SetJointStateData` replaces the latest
joint-state snapshot; on first write it resolves each incoming joint name to
its index in `ordered_joint_name`, caching the mapping in
`joint_name_index`; a reading with an unrecognized joint name is rejected
and does not update state. -/
def SetJointStateData (joint_state_data : JointState) (s : RLController) :
    RLController :=
  if joint_state_data.name.all
      (fun nm => s.control_conf.ordered_joint_name.contains nm) then
    { s with
        joint_state_data := joint_state_data
      , received_joint_state := true
      , joint_name_index :=
          if s.joint_name_index.isEmpty then
            joint_state_data.name.map fun nm =>
              (nm, s.control_conf.ordered_joint_name.findIdx (· = nm))
          else s.joint_name_index }
  else s

/-- `GetMode`: reads the mode flag. -/
def GetMode (s : RLController) : ControlMode :=
  s.control_mode

/-- Modelled from the spec: `IsReady` reports true once at least one full
sensor snapshot has been received in every field (the inference engine is
loaded by the constructor). -/
def IsReady (s : RLController) : Bool :=
  s.received_joy && s.received_imu && s.received_joint_state

/-- `GetJointCmdData` (simulation-facing encoding): the flat ordered array
of joint position commands. -/
def GetJointCmdDataSim (s : RLController) : List ℚ :=
  s.sim_joint_cmd

/-- Modelled from the spec: `UpdateStateEstimation` reindexes the joint
position/velocity samples into config order (missing joints retain the
previous-tick value), passes the IMU angular velocity through unchanged and
projects gravity into the body frame; no smoothing is applied at this
stage. -/
def UpdateStateEstimation (s : RLController) : RLController :=
  let ordered := s.control_conf.ordered_joint_name
  { s with propri :=
      { joint_pos :=
          reindex s.joint_state_data.name s.joint_state_data.position
            s.propri.joint_pos ordered
      , joint_vel :=
          reindex s.joint_state_data.name s.joint_state_data.velocity
            s.propri.joint_vel ordered
      , base_ang_vel := s.imu_data.angular_velocity
      , projected_gravity := projectGravity s.imu_data.orientation } }

/-- Modelled from the spec: one per-tick feature block, the concatenation in
fixed order of scaled joint position deltas from init, scaled joint
velocities, scaled base angular velocity, scaled projected gravity, the last
emitted action vector and the scaled velocity-command features. -/
def obsBlock (s : RLController) : List ℚ :=
  let sc := s.control_conf.obs_scales
  (List.zipWith (fun q i => sc.dof_pos * (q - i))
      s.propri.joint_pos s.init_joint_angles)
    ++ s.propri.joint_vel.map (fun v => sc.dof_vel * v)
    ++ [sc.ang_vel * s.propri.base_ang_vel.x,
        sc.ang_vel * s.propri.base_ang_vel.y,
        sc.ang_vel * s.propri.base_ang_vel.z]
    ++ [sc.quat * s.propri.projected_gravity.x,
        sc.quat * s.propri.projected_gravity.y,
        sc.quat * s.propri.projected_gravity.z]
    ++ s.last_actions
    ++ [sc.lin_vel * s.joy_data.linear_x,
        sc.lin_vel * s.joy_data.linear_y,
        sc.ang_vel * s.joy_data.angular_z]

/-- Modelled from the spec: `ComputeObservation` pushes the new feature
block into the history buffer — on the very first observation the buffer is
filled by replicating the block `num_hist` times, afterwards the oldest
block is evicted and the new one appended (FIFO) — then concatenates all
retained blocks oldest-first and clips every element to
`[-obs_clip, obs_clip]`. -/
def ComputeObservation (s : RLController) : RLController :=
  let block := obsBlock s
  let hist :=
    if s.is_first_rec_obs then
      List.replicate s.control_conf.onnx_conf.num_hist block
    else
      s.propri_history_buffer.drop 1 ++ [block]
  { s with
      propri_history_buffer := hist
    , is_first_rec_obs := false
    , observations := hist.flatten.map (clip s.control_conf.onnx_conf.obs_clip) }

/-- Runs the per-joint low-pass filter bank over an input vector, in joint
order, returning the outputs and the updated filters. -/
def lpfRun : List digital_lp_filter → List ℚ → List ℚ × List digital_lp_filter
  | f :: fs, x :: xs =>
    let r := f.step x
    let rest := lpfRun fs xs
    (r.1 :: rest.1, r.2 :: rest.2)
  | fs, [] => ([], fs)
  | [], _ :: _ => ([], [])

/-- Modelled from the spec: `ComputeActions` post-processes a raw action
vector in this order: (1) clip every element to
`[-actions_clip, actions_clip]`; (2) run each element through its joint's
low-pass filter, in joint order, updating filter memory; (3) scale by
`action_scale`; (4) add the joint's `init_state` angle to produce the target
position command.  The clipped vector is stored as the action state used as
an observation feature. -/
def ComputeActions (raw : List ℚ) (s : RLController) : RLController :=
  let clipped := raw.map (clip s.control_conf.onnx_conf.actions_clip)
  let fr := lpfRun s.low_pass_filters clipped
  let scaled := fr.1.map (fun a => s.control_conf.walk_step_conf.action_scale * a)
  { s with
      actions := clipped
    , last_actions := clipped
    , low_pass_filters := fr.2
    , sim_joint_cmd := List.zipWith (· + ·) s.init_joint_angles scaled }

/-- Modelled from the spec: Idle asserts no command — the previous state is
held unchanged. -/
def HandleIdleMode (s : RLController) : RLController :=
  s

/-- Modelled from the spec: Zero commands all joints to zero position. -/
def HandleZeroMode (s : RLController) : RLController :=
  { s with
      sim_joint_cmd :=
        List.replicate s.control_conf.ordered_joint_name.length 0 }

/-- Modelled from the spec: the Stand PD-blend.  While
`trans_mode_percent < 1` the percent advances linearly by
`cycle_time * 1000 / trans_mode_duration_ms` per tick (saturating at 1) and
the command interpolates from the measured position captured at blend start
toward `init_state`; once the percent has reached 1 the controller holds
`init_state`. -/
def HandleStandMode (s : RLController) : RLController :=
  if s.trans_mode_percent < 1 then
    let measured :=
      if s.trans_mode_percent = 0 then s.propri.joint_pos
      else s.current_joint_angles
    let p :=
      min 1 (s.trans_mode_percent +
        s.control_conf.walk_step_conf.cycle_time * 1000 /
          s.trans_mode_duration_ms)
    { s with
        current_joint_angles := measured
      , trans_mode_percent := p
      , sim_joint_cmd :=
          List.zipWith (fun c i => (1 - p) * c + p * i)
            measured s.init_joint_angles }
  else
    { s with sim_joint_cmd := s.init_joint_angles }

/-- Modelled from the spec: the Walk pipeline.  Every Walk tick increments
`loop_count`, estimates state and pushes an observation block; inference and
action post-processing run only once every `decimation` ticks.  On an
inference tick the engine (a black box returning `none` when it throws) is
invoked; a thrown exception or a tensor of the wrong length holds the last
known-good command and marks the fault flag instead of emitting a malformed
action. -/
def HandleWalkMode (engine : List ℚ → Option (List ℚ)) (s : RLController) :
    RLController :=
  let lc := s.loop_count + 1
  let s1 := { ComputeObservation (UpdateStateEstimation s) with loop_count := lc }
  if lc % s.control_conf.walk_step_conf.decimation = 0 then
    let s2 := { s1 with infer_count := s1.infer_count + 1 }
    match engine s1.observations with
    | none => { s2 with fault_flag := true }
    | some raw =>
      if raw.length = s.control_conf.onnx_conf.actions_size then
        ComputeActions raw s2
      else
        { s2 with fault_flag := true }
  else s1

/-- Modelled from the spec: the periodic `Update`.  Before readiness it is a
benign no-op leaving the previous command unchanged; otherwise it dispatches
on one consistent mode snapshot to the mode handler.  The external inference
engine is injected as a swappable dependency. -/
def Update (engine : List ℚ → Option (List ℚ)) (s : RLController) :
    RLController :=
  if IsReady s then
    match s.control_mode with
    | ControlMode.Idle => HandleIdleMode s
    | ControlMode.Zero => HandleZeroMode s
    | ControlMode.Stand => HandleStandMode (UpdateStateEstimation s)
    | ControlMode.Walk => HandleWalkMode engine s
  else s

end RLController

open RLController

/-- A small concrete configuration with two joints, used to evaluate the
model on concrete inputs. -/
def sampleCfg : ControlCfg :=
  { joint_conf :=
      [("init_state", [("j1", 1/2), ("j2", -1/4)]),
       ("stiffness", [("j1", 40), ("j2", 40)]),
       ("damping", [("j1", 2), ("j2", 2)])]
  , ordered_joint_name := ["j1", "j2"]
  , walk_step_conf := ⟨1/4, 2, 1/100, false, 1/10⟩
  , obs_scales := ⟨2, 1/4, 1, 1/20, 1⟩
  , onnx_conf := ⟨"policy.onnx", 2, 13, 3, 18, 100⟩ }

/-- The sample configuration with a long cycle time, so that one Stand tick
already completes the blend. -/
def fastCfg : ControlCfg :=
  { sampleCfg with
      walk_step_conf := { sampleCfg.walk_step_conf with cycle_time := 10 } }

/-- A stub inference engine returning a fixed well-formed tensor. -/
def stubEngine : List ℚ → Option (List ℚ) :=
  fun _ => some [1/2, 200]

/-- A stub inference engine that always throws. -/
def failEngine : List ℚ → Option (List ℚ) :=
  fun _ => none

/-- A stub inference engine returning a tensor of the wrong length. -/
def shortEngine : List ℚ → Option (List ℚ) :=
  fun _ => some [1]

/-- A freshly constructed controller that has received one full snapshot in
every sensor field, hence is ready. -/
def mkReady (cfg : ControlCfg) : RLController :=
  SetJointStateData ⟨cfg.ordered_joint_name, [1/3, 1/5], [1/7, 0]⟩
    (SetImuData ⟨⟨1, 0, 0, 0⟩, ⟨1/9, 0, 0⟩, ⟨0, 0, -10⟩⟩
      (SetCmdData ⟨1/2, 0, 0, 0, 0, 1/10⟩ (init cfg true)))

/-- A ready controller in Idle mode. -/
def sampleReady : RLController :=
  mkReady sampleCfg

/-- A ready controller switched to Stand mode. -/
def sampleStand : RLController :=
  SetMode ControlMode.Stand sampleReady

/-- A ready controller switched to Walk mode. -/
def sampleWalk : RLController :=
  SetMode ControlMode.Walk sampleReady

/-- The Walk-mode controller one tick before an inference tick
(`decimation = 2`, so the tick after `loop_count = 1` infers). -/
def sampleWalkTick : RLController :=
  { sampleWalk with loop_count := 1 }

/-- A ready Stand-mode controller on the long-cycle configuration. -/
def fastStand : RLController :=
  SetMode ControlMode.Stand (mkReady fastCfg)

/-- Clipping to a symmetric interval with nonnegative bound lands in the
interval. -/
lemma clip_bounds (c x : ℚ) (h : 0 ≤ c) : -c ≤ clip c x ∧ clip c x ≤ c := by
  unfold clip
  refine ⟨le_max_left _ _, max_le (by linarith) (min_le_left _ _)⟩

/-- Reindexing always produces a vector of the config joint dimension. -/
lemma reindex_length (names : List String) (vals prev : List ℚ)
    (ordered : List String) :
    (reindex names vals prev ordered).length = ordered.length := by
  simp [reindex]

/-- `getD` of a mapped list, inside the length. -/
lemma getD_map (f : ℚ → ℚ) (l : List ℚ) (j : ℕ) (h : j < l.length) :
    (l.map f).getD j 0 = f (l.getD j 0) := by
  induction l generalizing j with
  | nil => simp at h
  | cons a l ih =>
    cases j with
    | zero => simp
    | succ j => simpa using ih j (by simpa using h)

/-- `getD` of a zipped list, inside both lengths. -/
lemma getD_zipWith (f : ℚ → ℚ → ℚ) (as bs : List ℚ) (j : ℕ)
    (ha : j < as.length) (hb : j < bs.length) :
    (List.zipWith f as bs).getD j 0 = f (as.getD j 0) (bs.getD j 0) := by
  induction as generalizing bs j with
  | nil => simp at ha
  | cons a as ih =>
    cases bs with
    | nil => simp at hb
    | cons b bs =>
      cases j with
      | zero => simp
      | succ j => simpa using ih bs j (by simpa using ha) (by simpa using hb)

/-- The filter bank produces one output per joint, up to the shorter list. -/
lemma lpfRun_length_fst (fs : List digital_lp_filter) (xs : List ℚ) :
    (lpfRun fs xs).1.length = min fs.length xs.length := by
  induction fs generalizing xs with
  | nil => cases xs <;> simp [lpfRun]
  | cons f fs ih =>
    cases xs with
    | nil => simp [lpfRun]
    | cons x xs =>
      simp only [lpfRun, List.length_cons, ih]
      omega

/-- Per-joint view of the filter bank: the `j`-th output and updated filter
come from stepping the `j`-th filter with the `j`-th input. -/
lemma lpfRun_getD (fs : List digital_lp_filter) (xs : List ℚ) (j : ℕ)
    (hf : j < fs.length) (hx : j < xs.length) :
    (lpfRun fs xs).1.getD j 0 = ((fs.getD j ⟨0, 0⟩).step (xs.getD j 0)).1
    ∧ (lpfRun fs xs).2.getD j ⟨0, 0⟩ =
        ((fs.getD j ⟨0, 0⟩).step (xs.getD j 0)).2 := by
  induction fs generalizing xs j with
  | nil => simp at hf
  | cons f fs ih =>
    cases xs with
    | nil => simp at hx
    | cons x xs =>
      cases j with
      | zero => simp [lpfRun]
      | succ j =>
        simpa [lpfRun] using ih xs j (by simpa using hf) (by simpa using hx)

/-- A convex blend evaluated at weight 1 returns the target list. -/
lemma zipWith_blend_complete (p : ℚ) (hp : p = 1) (c i : List ℚ)
    (h : c.length = i.length) :
    List.zipWith (fun a b => (1 - p) * a + p * b) c i = i := by
  subst hp
  induction c generalizing i with
  | nil => cases i <;> simp_all
  | cons a c ih =>
    cases i with
    | nil => simp at h
    | cons b i =>
      simp only [List.zipWith_cons_cons]
      have hb : (1 - (1 : ℚ)) * a + 1 * b = b := by ring
      rw [hb, ih i (by simpa using h)]

/-- `Update` never changes the configuration, the blend duration, the mode,
the readiness flags or the cached init angles, in any mode, ready or not. -/
lemma update_preserves_core (engine : List ℚ → Option (List ℚ))
    (s : RLController) :
    (Update engine s).control_conf = s.control_conf
    ∧ (Update engine s).trans_mode_duration_ms = s.trans_mode_duration_ms
    ∧ (Update engine s).control_mode = s.control_mode
    ∧ (Update engine s).received_joy = s.received_joy
    ∧ (Update engine s).received_imu = s.received_imu
    ∧ (Update engine s).received_joint_state = s.received_joint_state
    ∧ (Update engine s).init_joint_angles = s.init_joint_angles := by
  unfold Update
  split
  · split
    · exact ⟨rfl, rfl, rfl, rfl, rfl, rfl, rfl⟩
    · exact ⟨rfl, rfl, rfl, rfl, rfl, rfl, rfl⟩
    · unfold HandleStandMode
      split <;> exact ⟨rfl, rfl, rfl, rfl, rfl, rfl, rfl⟩
    · unfold HandleWalkMode
      dsimp only
      split
      · split
        · exact ⟨rfl, rfl, rfl, rfl, rfl, rfl, rfl⟩
        · split
          · exact ⟨rfl, rfl, rfl, rfl, rfl, rfl, rfl⟩
          · exact ⟨rfl, rfl, rfl, rfl, rfl, rfl, rfl⟩
      · exact ⟨rfl, rfl, rfl, rfl, rfl, rfl, rfl⟩
  · exact ⟨rfl, rfl, rfl, rfl, rfl, rfl, rfl⟩

/-- `Update` preserves readiness. -/
lemma isReady_update (engine : List ℚ → Option (List ℚ)) (s : RLController) :
    IsReady (Update engine s) = IsReady s := by
  obtain ⟨-, -, -, h4, h5, h6, -⟩ := update_preserves_core engine s
  unfold IsReady
  rw [h4, h5, h6]

/-- One ready Stand tick advances the blend percent by
`cycle_time * 1000 / trans_mode_duration_ms`, saturating at 1; a completed
blend leaves the percent unchanged. -/
lemma update_stand_percent (engine : List ℚ → Option (List ℚ))
    (s : RLController) (hr : IsReady s = true)
    (hm : s.control_mode = ControlMode.Stand) :
    (Update engine s).trans_mode_percent =
      if s.trans_mode_percent < 1 then
        min 1 (s.trans_mode_percent +
          s.control_conf.walk_step_conf.cycle_time * 1000 /
            s.trans_mode_duration_ms)
      else s.trans_mode_percent := by
  unfold Update
  rw [if_pos hr, hm]
  unfold HandleStandMode UpdateStateEstimation
  dsimp only
  split_ifs <;> rfl

/-- Iterating `Update` preserves the configuration, the blend duration, the
mode and readiness. -/
lemma iterate_preserves_core (engine : List ℚ → Option (List ℚ))
    (s : RLController) (k : ℕ) :
    ((Update engine)^[k] s).control_conf = s.control_conf
    ∧ ((Update engine)^[k] s).trans_mode_duration_ms = s.trans_mode_duration_ms
    ∧ ((Update engine)^[k] s).control_mode = s.control_mode
    ∧ IsReady ((Update engine)^[k] s) = IsReady s := by
  induction k with
  | zero => simp
  | succ k ih =>
    obtain ⟨h1, h2, h3, h4⟩ := ih
    obtain ⟨p1, p2, p3, -, -, -, -⟩ :=
      update_preserves_core engine ((Update engine)^[k] s)
    rw [Function.iterate_succ_apply']
    exact ⟨p1.trans h1, p2.trans h2, p3.trans h3,
      (isReady_update engine _).trans h4⟩

/-- Starting a ready Stand blend at percent 0, after `k` ticks the percent
is exactly `min 1 (k * rate)` with
`rate = cycle_time * 1000 / trans_mode_duration_ms`. -/
lemma stand_iter_percent (engine : List ℚ → Option (List ℚ))
    (s : RLController) (hr : IsReady s = true)
    (hm : s.control_mode = ControlMode.Stand)
    (hc : 0 ≤ s.control_conf.walk_step_conf.cycle_time)
    (hd : 0 < s.trans_mode_duration_ms)
    (hp : s.trans_mode_percent = 0) (k : ℕ) :
    ((Update engine)^[k] s).trans_mode_percent =
      min 1 ((k : ℚ) *
        (s.control_conf.walk_step_conf.cycle_time * 1000 /
          s.trans_mode_duration_ms)) := by
  have hrate : 0 ≤ s.control_conf.walk_step_conf.cycle_time * 1000 /
      s.trans_mode_duration_ms :=
    div_nonneg (by linarith) hd.le
  induction k with
  | zero =>
    simp only [Function.iterate_zero, id_eq, Nat.cast_zero, zero_mul, hp]
    exact (min_eq_right (by norm_num)).symm
  | succ k ih =>
    obtain ⟨h1, h2, h3, h4⟩ := iterate_preserves_core engine s k
    rw [Function.iterate_succ_apply',
      update_stand_percent engine _ (h4.trans hr) (h3.trans hm), ih, h1, h2]
    set r := s.control_conf.walk_step_conf.cycle_time * 1000 /
      s.trans_mode_duration_ms with hrdef
    by_cases hlt : min 1 ((k : ℚ) * r) < 1
    · have hkr : (k : ℚ) * r < 1 := by
        by_contra hge
        push_neg at hge
        rw [min_eq_left hge] at hlt
        exact lt_irrefl 1 hlt
      rw [if_pos hlt, min_eq_right hkr.le]
      have hcast : (((k + 1 : ℕ)) : ℚ) * r = (k : ℚ) * r + r := by
        push_cast
        ring
      rw [hcast]
    · have hge : 1 ≤ min 1 ((k : ℚ) * r) := not_lt.mp hlt
      have hmin1 : min 1 ((k : ℚ) * r) = 1 :=
        le_antisymm (min_le_left _ _) hge
      have hkr : 1 ≤ (k : ℚ) * r := le_trans hge (min_le_right _ _)
      rw [if_neg hlt, hmin1]
      have hk1 : (1 : ℚ) ≤ ((k + 1 : ℕ) : ℚ) * r := by
        push_cast
        nlinarith
      exact (min_eq_left hk1).symm

/-- C1: every element of the observation vector produced by
`ComputeObservation` lies within `[-obs_clip, obs_clip]`, and every element
of the stored (pre-scale) action vector produced by `ComputeActions` lies
within `[-actions_clip, actions_clip]`. -/
theorem obs_and_actions_within_clip (s : RLController) (raw : List ℚ)
    (ho : 0 ≤ s.control_conf.onnx_conf.obs_clip)
    (ha : 0 ≤ s.control_conf.onnx_conf.actions_clip) :
    (∀ x ∈ (ComputeObservation s).observations,
      -s.control_conf.onnx_conf.obs_clip ≤ x
      ∧ x ≤ s.control_conf.onnx_conf.obs_clip)
    ∧ (∀ x ∈ (ComputeActions raw s).actions,
      -s.control_conf.onnx_conf.actions_clip ≤ x
      ∧ x ≤ s.control_conf.onnx_conf.actions_clip) := by
  constructor
  · intro x hx
    unfold ComputeObservation at hx
    dsimp only at hx
    obtain ⟨y, -, rfl⟩ := List.mem_map.mp hx
    exact clip_bounds _ y ho
  · intro x hx
    unfold ComputeActions at hx
    dsimp only at hx
    obtain ⟨y, -, rfl⟩ := List.mem_map.mp hx
    exact clip_bounds _ y ha

/-- C1 witness: in the sample configuration the first observation element
and the first stored action element respect their clip bounds. -/
theorem obs_and_actions_within_clip_witness :
    (-sampleReady.control_conf.onnx_conf.obs_clip ≤
        (ComputeObservation sampleReady).observations.getD 0 0
      ∧ (ComputeObservation sampleReady).observations.getD 0 0 ≤
          sampleReady.control_conf.onnx_conf.obs_clip)
    ∧ (-sampleReady.control_conf.onnx_conf.actions_clip ≤
        (ComputeActions [250, -3] sampleReady).actions.getD 0 0
      ∧ (ComputeActions [250, -3] sampleReady).actions.getD 0 0 ≤
          sampleReady.control_conf.onnx_conf.actions_clip) :=
  ⟨(obs_and_actions_within_clip sampleReady [250, -3] (by decide) (by decide)).1
      _ (by rw [List.getD_eq_getElem _ _ (by decide)]; exact List.getElem_mem _),
   (obs_and_actions_within_clip sampleReady [250, -3] (by decide) (by decide)).2
      _ (by rw [List.getD_eq_getElem _ _ (by decide)]; exact List.getElem_mem _)⟩

/-- C3: `ComputeObservation` maintains the history buffer as a FIFO — on
the very first observation it is filled by replicating the first computed
block `num_hist` times, on every later observation the oldest block is
evicted and the new block appended, keeping exactly `num_hist` blocks. -/
theorem history_buffer_fifo (s : RLController) :
    (ComputeObservation s).is_first_rec_obs = false
    ∧ (s.is_first_rec_obs = true →
        (ComputeObservation s).propri_history_buffer =
          List.replicate s.control_conf.onnx_conf.num_hist (obsBlock s)
        ∧ (ComputeObservation s).propri_history_buffer.length =
            s.control_conf.onnx_conf.num_hist)
    ∧ (s.is_first_rec_obs = false →
        (ComputeObservation s).propri_history_buffer =
          s.propri_history_buffer.drop 1 ++ [obsBlock s]
        ∧ (0 < s.control_conf.onnx_conf.num_hist →
            s.propri_history_buffer.length = s.control_conf.onnx_conf.num_hist →
            (ComputeObservation s).propri_history_buffer.length =
              s.control_conf.onnx_conf.num_hist)) := by
  unfold ComputeObservation
  dsimp only
  refine ⟨rfl, fun h => ?_, fun h => ?_⟩
  · rw [if_pos h]
    exact ⟨rfl, List.length_replicate _ _⟩
  · rw [if_neg (by simp [h])]
    refine ⟨rfl, fun hpos hlen => ?_⟩
    simp only [List.length_append, List.length_drop, List.length_cons,
      List.length_nil]
    omega

/-- C3 witness: the sample controller's first observation fills the buffer
with 3 identical blocks; the following observation evicts the oldest and
appends one new block, keeping 3. -/
theorem history_buffer_fifo_witness :
    (ComputeObservation sampleReady).propri_history_buffer =
      List.replicate sampleReady.control_conf.onnx_conf.num_hist
        (obsBlock sampleReady)
    ∧ (ComputeObservation (ComputeObservation sampleReady)).propri_history_buffer =
        (ComputeObservation sampleReady).propri_history_buffer.drop 1 ++
          [obsBlock (ComputeObservation sampleReady)]
    ∧ (ComputeObservation (ComputeObservation sampleReady)).propri_history_buffer.length =
        (ComputeObservation sampleReady).control_conf.onnx_conf.num_hist :=
  ⟨((history_buffer_fifo sampleReady).2.1 (by decide)).1,
   ((history_buffer_fifo (ComputeObservation sampleReady)).2.2 (by decide)).1,
   ((history_buffer_fifo (ComputeObservation sampleReady)).2.2 (by decide)).2
      (by decide) (by decide)⟩

/-- C6: a joint-state reading containing a joint name outside
`ordered_joint_name` is rejected by `SetJointStateData`: the whole
controller state, in particular the prior joint-state snapshot, is left
unchanged (the setter is a total function, so no exception escapes and the
control loop is not halted). -/
theorem setJointState_rejects_unknown (s : RLController) (d : JointState)
    (h : ∃ nm ∈ d.name, nm ∉ s.control_conf.ordered_joint_name) :
    SetJointStateData d s = s := by
  obtain ⟨nm, hmem, hnm⟩ := h
  have hneg : ¬(d.name.all
      (fun nm => s.control_conf.ordered_joint_name.contains nm) = true) := by
    intro hall
    exact hnm (by simpa using List.all_eq_true.mp hall nm hmem)
  unfold SetJointStateData
  rw [if_neg hneg]

/-- C6 witness: a reading for the unknown joint "zz" leaves the sample
controller untouched. -/
theorem setJointState_rejects_unknown_witness :
    SetJointStateData ⟨["zz"], [1], [0]⟩ sampleReady = sampleReady :=
  setJointState_rejects_unknown sampleReady ⟨["zz"], [1], [0]⟩
    ⟨"zz", by decide, by decide⟩

/-- C8: switching into Stand mode through `SetMode` resets
`trans_mode_percent` to 0, for every controller state, hence regardless of
the prior mode and of its prior value. -/
theorem setMode_stand_resets_percent (s : RLController) :
    (SetMode ControlMode.Stand s).trans_mode_percent = 0
    ∧ (SetMode ControlMode.Stand s).control_mode = ControlMode.Stand := by
  unfold SetMode
  rw [if_pos rfl]
  exact ⟨rfl, rfl⟩

/-- C9: in Idle mode `Update` is the identity, so two consecutive calls
with unchanged sensor snapshots produce an identical output command. -/
theorem idle_update_idempotent (engine : List ℚ → Option (List ℚ))
    (s : RLController) (hm : s.control_mode = ControlMode.Idle) :
    (Update engine (Update engine s)).sim_joint_cmd =
      (Update engine s).sim_joint_cmd := by
  have h1 : Update engine s = s := by
    unfold Update
    rw [hm]
    dsimp only
    split <;> rfl
  rw [h1, h1]

/-- C9 witness: on the ready sample controller (constructed in Idle mode)
the second `Update` emits the same command as the first. -/
theorem idle_update_idempotent_witness :
    (Update stubEngine (Update stubEngine sampleReady)).sim_joint_cmd =
      (Update stubEngine sampleReady).sim_joint_cmd :=
  idle_update_idempotent stubEngine sampleReady (by decide)

/-- C2: the post-processed command of joint `j` is obtained from the raw
action by clipping to `[-actions_clip, actions_clip]`, then stepping that
joint's low-pass filter (whose memory is updated in place), then scaling by
`action_scale`, then adding the joint's `init_state` angle — in exactly
that order. -/
theorem computeActions_pipeline_order (s : RLController) (raw : List ℚ)
    (j : ℕ)
    (hf : s.low_pass_filters.length = s.init_joint_angles.length)
    (hr : raw.length = s.init_joint_angles.length)
    (hj : j < s.init_joint_angles.length) :
    (ComputeActions raw s).sim_joint_cmd.getD j 0 =
      s.init_joint_angles.getD j 0 +
        s.control_conf.walk_step_conf.action_scale *
          ((s.low_pass_filters.getD j ⟨0, 0⟩).step
            (clip s.control_conf.onnx_conf.actions_clip (raw.getD j 0))).1
    ∧ (ComputeActions raw s).low_pass_filters.getD j ⟨0, 0⟩ =
        ((s.low_pass_filters.getD j ⟨0, 0⟩).step
          (clip s.control_conf.onnx_conf.actions_clip (raw.getD j 0))).2 := by
  have hrawj : j < raw.length := by
    rw [hr]
    exact hj
  have hfj : j < s.low_pass_filters.length := by
    rw [hf]
    exact hj
  have hclj : j <
      (raw.map (clip s.control_conf.onnx_conf.actions_clip)).length := by
    rw [List.length_map]
    exact hrawj
  have hfst : (lpfRun s.low_pass_filters
      (raw.map (clip s.control_conf.onnx_conf.actions_clip))).1.length =
      s.init_joint_angles.length := by
    rw [lpfRun_length_fst, List.length_map, hf, hr]
    exact min_self _
  obtain ⟨hout, hflt⟩ := lpfRun_getD s.low_pass_filters
    (raw.map (clip s.control_conf.onnx_conf.actions_clip)) j hfj hclj
  unfold ComputeActions
  dsimp only
  constructor
  · rw [getD_zipWith _ _ _ j hj (by rw [List.length_map, hfst]; exact hj)]
    rw [getD_map _ _ j (by rw [hfst]; exact hj)]
    rw [hout, getD_map _ _ j hrawj]
  · rw [hflt, getD_map _ _ j hrawj]

/-- C2 witness: on the sample controller the command for joint 0 of the raw
action `[250, -3]` equals the clip-filter-scale-add composition. -/
theorem computeActions_pipeline_order_witness :
    (ComputeActions [250, -3] sampleReady).sim_joint_cmd.getD 0 0 =
      sampleReady.init_joint_angles.getD 0 0 +
        sampleReady.control_conf.walk_step_conf.action_scale *
          ((sampleReady.low_pass_filters.getD 0 ⟨0, 0⟩).step
            (clip sampleReady.control_conf.onnx_conf.actions_clip
              (([250, -3] : List ℚ).getD 0 0))).1 :=
  (computeActions_pipeline_order sampleReady [250, -3] 0 (by decide)
    (by decide) (by decide)).1

/-- C5: in ready Walk mode, inference (counted by `infer_count`) and action
post-processing run exactly on the ticks where the incremented `loop_count`
is divisible by `decimation`; on every other tick the previously computed
command is held unchanged. -/
theorem walk_decimation_gating (engine : List ℚ → Option (List ℚ))
    (s : RLController) (hr : IsReady s = true)
    (hm : s.control_mode = ControlMode.Walk) :
    ((s.loop_count + 1) % s.control_conf.walk_step_conf.decimation ≠ 0 →
      (Update engine s).infer_count = s.infer_count
      ∧ (Update engine s).sim_joint_cmd = s.sim_joint_cmd
      ∧ (Update engine s).loop_count = s.loop_count + 1)
    ∧ ((s.loop_count + 1) % s.control_conf.walk_step_conf.decimation = 0 →
      (Update engine s).infer_count = s.infer_count + 1
      ∧ (Update engine s).loop_count = s.loop_count + 1) := by
  unfold Update
  rw [if_pos hr, hm]
  dsimp only
  unfold HandleWalkMode
  dsimp only
  constructor
  · intro hne
    rw [if_neg hne]
    exact ⟨rfl, rfl, rfl⟩
  · intro heq
    rw [if_pos heq]
    split
    · exact ⟨rfl, rfl⟩
    · split
      · exact ⟨rfl, rfl⟩
      · exact ⟨rfl, rfl⟩

/-- C5 witness: with `decimation = 2`, the first Walk tick (loop count
0 → 1) does not infer and holds the command; the next tick (1 → 2)
infers exactly once. -/
theorem walk_decimation_gating_witness :
    ((Update stubEngine sampleWalk).infer_count = sampleWalk.infer_count
      ∧ (Update stubEngine sampleWalk).sim_joint_cmd = sampleWalk.sim_joint_cmd
      ∧ (Update stubEngine sampleWalk).loop_count = sampleWalk.loop_count + 1)
    ∧ ((Update stubEngine sampleWalkTick).infer_count =
        sampleWalkTick.infer_count + 1
      ∧ (Update stubEngine sampleWalkTick).loop_count =
          sampleWalkTick.loop_count + 1) :=
  ⟨(walk_decimation_gating stubEngine sampleWalk (by decide) (by decide)).1
      (by decide),
   (walk_decimation_gating stubEngine sampleWalkTick (by decide)
      (by decide)).2 (by decide)⟩

/-- C7: on a ready Walk inference tick where the engine throws (`none`) or
returns a tensor of the wrong length, `Update` holds the last known-good
command and the last action state unchanged and marks the fault flag; the
malformed vector is never written to the output command. -/
theorem inference_failure_holds_command (engine : List ℚ → Option (List ℚ))
    (s : RLController) (hr : IsReady s = true)
    (hm : s.control_mode = ControlMode.Walk)
    (ht : (s.loop_count + 1) % s.control_conf.walk_step_conf.decimation = 0)
    (hfail :
      engine (ComputeObservation (UpdateStateEstimation s)).observations = none
      ∨ ∃ a,
          engine (ComputeObservation (UpdateStateEstimation s)).observations =
            some a
          ∧ a.length ≠ s.control_conf.onnx_conf.actions_size) :
    (Update engine s).sim_joint_cmd = s.sim_joint_cmd
    ∧ (Update engine s).fault_flag = true
    ∧ (Update engine s).last_actions = s.last_actions := by
  unfold Update
  rw [if_pos hr, hm]
  dsimp only
  unfold HandleWalkMode
  dsimp only
  rw [if_pos ht]
  rcases hfail with hnone | ⟨a, ha, hlen⟩
  · rw [hnone]
    exact ⟨rfl, rfl, rfl⟩
  · rw [ha]
    dsimp only
    rw [if_neg hlen]
    exact ⟨rfl, rfl, rfl⟩

/-- C7 witness: on the Walk inference tick, a throwing engine and a
wrong-length engine both hold the command and raise the fault flag. -/
theorem inference_failure_holds_command_witness :
    ((Update failEngine sampleWalkTick).sim_joint_cmd =
        sampleWalkTick.sim_joint_cmd
      ∧ (Update failEngine sampleWalkTick).fault_flag = true)
    ∧ ((Update shortEngine sampleWalkTick).sim_joint_cmd =
        sampleWalkTick.sim_joint_cmd
      ∧ (Update shortEngine sampleWalkTick).fault_flag = true) :=
  ⟨⟨(inference_failure_holds_command failEngine sampleWalkTick (by decide)
        (by decide) (by decide) (Or.inl rfl)).1,
    (inference_failure_holds_command failEngine sampleWalkTick (by decide)
        (by decide) (by decide) (Or.inl rfl)).2.1⟩,
   ⟨(inference_failure_holds_command shortEngine sampleWalkTick (by decide)
        (by decide) (by decide) (Or.inr ⟨[1], rfl, by decide⟩)).1,
    (inference_failure_holds_command shortEngine sampleWalkTick (by decide)
        (by decide) (by decide) (Or.inr ⟨[1], rfl, by decide⟩)).2.1⟩⟩

/-- C4: in ready Stand mode the blend percent never decreases across a
tick, advances by exactly `cycle_time * 1000 / trans_mode_duration_ms`
(saturating at 1) while incomplete, and from the moment it reaches 1 the
emitted command equals `init_state` exactly and is held, with the percent
frozen. -/
theorem stand_blend_monotone_completes (engine : List ℚ → Option (List ℚ))
    (s : RLController) (hr : IsReady s = true)
    (hm : s.control_mode = ControlMode.Stand)
    (hc : 0 ≤ s.control_conf.walk_step_conf.cycle_time)
    (hd : 0 < s.trans_mode_duration_ms)
    (hlen : s.current_joint_angles.length = s.init_joint_angles.length)
    (hlen2 : s.init_joint_angles.length =
      s.control_conf.ordered_joint_name.length) :
    s.trans_mode_percent ≤ (Update engine s).trans_mode_percent
    ∧ (s.trans_mode_percent < 1 →
        (Update engine s).trans_mode_percent =
          min 1 (s.trans_mode_percent +
            s.control_conf.walk_step_conf.cycle_time * 1000 /
              s.trans_mode_duration_ms))
    ∧ (1 ≤ (Update engine s).trans_mode_percent →
        (Update engine s).sim_joint_cmd = s.init_joint_angles)
    ∧ (1 ≤ s.trans_mode_percent →
        (Update engine s).trans_mode_percent = s.trans_mode_percent
        ∧ (Update engine s).sim_joint_cmd = s.init_joint_angles) := by
  have hrate : 0 ≤ s.control_conf.walk_step_conf.cycle_time * 1000 /
      s.trans_mode_duration_ms :=
    div_nonneg (by linarith) hd.le
  unfold Update
  rw [if_pos hr, hm]
  dsimp only
  unfold HandleStandMode UpdateStateEstimation
  dsimp only
  by_cases hp : s.trans_mode_percent < 1
  · rw [if_pos hp]
    dsimp only
    refine ⟨le_min hp.le (by linarith), fun _ => rfl, fun h1 => ?_,
      fun h1 => absurd h1 (not_le.mpr hp)⟩
    have hmin : min 1 (s.trans_mode_percent +
        s.control_conf.walk_step_conf.cycle_time * 1000 /
          s.trans_mode_duration_ms) = 1 :=
      le_antisymm (min_le_left _ _) h1
    by_cases hz : s.trans_mode_percent = 0
    · rw [if_pos hz]
      exact zipWith_blend_complete _ hmin _ _
        (by rw [reindex_length]; exact hlen2.symm)
    · rw [if_neg hz]
      exact zipWith_blend_complete _ hmin _ _ hlen
  · rw [if_neg hp]
    dsimp only
    exact ⟨le_refl _, fun h => absurd h hp, fun _ => rfl,
      fun _ => ⟨rfl, rfl⟩⟩

/-- C4 witness: on the sample Stand controller (percent 0) one tick keeps
the percent monotone and advances it by exactly one blend step. -/
theorem stand_blend_monotone_completes_witness :
    sampleStand.trans_mode_percent ≤
        (Update stubEngine sampleStand).trans_mode_percent
    ∧ (Update stubEngine sampleStand).trans_mode_percent =
        min 1 (sampleStand.trans_mode_percent +
          sampleStand.control_conf.walk_step_conf.cycle_time * 1000 /
            sampleStand.trans_mode_duration_ms) :=
  ⟨(stand_blend_monotone_completes stubEngine sampleStand (by decide)
      (by decide) (by norm_num : (0 : ℚ) ≤ 1 / 100) (by decide) (by decide)
      (by decide)).1,
   (stand_blend_monotone_completes stubEngine sampleStand (by decide)
      (by decide) (by norm_num : (0 : ℚ) ≤ 1 / 100) (by decide) (by decide)
      (by decide)).2.1 (by decide)⟩

/-- C10: `trans_mode_duration_ms` is 2000 at construction and no public
operation (`SetMode`, the sensor setters, `Update`) ever modifies it; hence
a Stand blend started at percent 0 completes (percent reaches 1) once the
ticks cover 2000 ms worth of `cycle_time`. -/
theorem trans_mode_duration_fixed :
    (∀ (cfg : ControlCfg) (b : Bool),
      (init cfg b).trans_mode_duration_ms = 2000)
    ∧ (∀ (s : RLController) (m : ControlMode),
      (SetMode m s).trans_mode_duration_ms = s.trans_mode_duration_ms)
    ∧ (∀ (s : RLController) (d : Twist),
      (SetCmdData d s).trans_mode_duration_ms = s.trans_mode_duration_ms)
    ∧ (∀ (s : RLController) (d : Imu),
      (SetImuData d s).trans_mode_duration_ms = s.trans_mode_duration_ms)
    ∧ (∀ (s : RLController) (d : JointState),
      (SetJointStateData d s).trans_mode_duration_ms =
        s.trans_mode_duration_ms)
    ∧ (∀ (engine : List ℚ → Option (List ℚ)) (s : RLController),
      (Update engine s).trans_mode_duration_ms = s.trans_mode_duration_ms)
    ∧ (∀ (engine : List ℚ → Option (List ℚ)) (s : RLController) (n : ℕ),
      IsReady s = true → s.control_mode = ControlMode.Stand →
      s.trans_mode_percent = 0 → s.trans_mode_duration_ms = 2000 →
      0 ≤ s.control_conf.walk_step_conf.cycle_time →
      2000 ≤ (n : ℚ) * (s.control_conf.walk_step_conf.cycle_time * 1000) →
      1 ≤ ((Update engine)^[n] s).trans_mode_percent) := by
  refine ⟨fun cfg b => rfl, ?_, fun s d => rfl, fun s d => rfl, ?_,
    fun engine s => (update_preserves_core engine s).2.1, ?_⟩
  · intro s m
    unfold SetMode
    split <;> rfl
  · intro s d
    unfold SetJointStateData
    split <;> rfl
  · intro engine s n h1 h2 h3 h4 h5 h6
    have hd : (0 : ℚ) < s.trans_mode_duration_ms := by
      rw [h4]
      norm_num
    rw [stand_iter_percent engine s h1 h2 h5 hd h3 n]
    have hnr : (1 : ℚ) ≤ (n : ℚ) *
        (s.control_conf.walk_step_conf.cycle_time * 1000 /
          s.trans_mode_duration_ms) := by
      rw [h4, ← mul_div_assoc, le_div_iff₀ (by norm_num : (0 : ℚ) < 2000)]
      linarith
    exact le_of_eq (min_eq_left hnr).symm

/-- C10 witness: the freshly constructed sample controller has a 2000 ms
blend duration, and on the long-cycle Stand controller a single tick
(covering 10000 ms) completes the blend. -/
theorem trans_mode_duration_fixed_witness :
    (init sampleCfg true).trans_mode_duration_ms = 2000
    ∧ 1 ≤ ((Update stubEngine)^[1] fastStand).trans_mode_percent :=
  ⟨trans_mode_duration_fixed.1 sampleCfg true,
   trans_mode_duration_fixed.2.2.2.2.2.2 stubEngine fastStand 1 (by decide)
     (by decide) (by decide) (by decide) (by decide)
     (by norm_num : (2000 : ℚ) ≤ ((1 : ℕ) : ℚ) * (10 * 1000))⟩

end RLControl
